import Mathlib

/-!
Shallow embedding of `src/daily_fetch.py` (bituion/daily-paper-feed), a
daily batch job: load existing JSON collection, fetch recent arXiv entries,
filter by time cutoff / known ids / categories, enrich via an AI call with
fallback, build records, and persist `new ++ existing`.

Modelling conventions:
* Timestamps (`datetime` values) are integers on a common timeline
  (seconds); `datetime.timedelta(hours=25)` is `25 * 3600`; comparison of
  `datetime` values is integer comparison.
* External effects are inputs: the arXiv fetch result is an
  `Except Unit (List ArxivEntry)` (`error` = the iteration raised), each
  AI call is an `Except Unit AIDict` (`error` = the call raised), and
  `random.choice(GRADIENTS)` is a function from the call index to the
  chosen string.
* A parsed JSON object (Python `dict` of strings) is an association list
  `List (String × String)`; `dict.get k default` is `dictGet`.
* `r.updated.strftime "%Y-%m-%d"` is abstracted as decimal rendering of
  the integer timestamp; no claim depends on the rendered text.
-/

namespace DailyFetch

/-- `TARGET_CATEGORIES = ["cs.AI", "cs.CL", "cs.LG", "cs.CV"]`. -/
def TARGET_CATEGORIES : List String := ["cs.AI", "cs.CL", "cs.LG", "cs.CV"]

/-- The fixed gradient palette `GRADIENTS`. -/
def GRADIENTS : List String :=
  [ "bg-gradient-to-br from-indigo-600 to-blue-600"
  , "bg-gradient-to-br from-purple-500 to-pink-600"
  , "bg-gradient-to-br from-orange-400 to-red-500"
  , "bg-gradient-to-br from-emerald-500 to-teal-600"
  , "bg-gradient-to-br from-slate-700 to-slate-900"
  , "bg-gradient-to-br from-rose-500 to-red-600" ]

/-- An upstream arXiv result `r` as used by the script: `r.entry_id`,
`r.title`, `r.summary` (the abstract), `r.categories`, the author names
(`a.name for a in r.authors`), `r.updated` (integer timestamp) and
`r.pdf_url`. -/
structure ArxivEntry where
  entry_id : String
  title : String
  summary : String
  categories : List String
  authors : List String
  updated : Int
  pdf_url : String
deriving DecidableEq

/-- The persisted paper object built in `main` (the nested
`"summary": {"innovation": …}` object is flattened to the single field
`summary_innovation`). -/
structure PaperRecord where
  id : String
  orig_title : String
  tags : List String
  userTags : List String
  coverGradient : String
  summary_innovation : String
  abstract_zh : String
  abstract_en : String
  authors : List String
  affiliation : String
  date : String
  pdf_url : String
  likes : Nat
  isLiked : Bool
  collections : Nat
  isCollected : Bool
  comments : List String
  qa : List String
  expanded : Bool
  isTranslated : Bool
deriving DecidableEq

/-- Python `str.split(sep)` for a single-character separator, over the
character list: splits at every occurrence of `sep`, keeping empty
pieces, and always returns at least one piece. -/
def splitOnChar (sep : Char) : List Char → List (List Char)
  | [] => [[]]
  | c :: cs =>
    if c = sep then [] :: splitOnChar sep cs
    else
      match splitOnChar sep cs with
      | [] => [[c]]
      | w :: ws => (c :: w) :: ws

/-- `r.entry_id.split('/')[-1]`: the last piece of splitting on `/`
(Python `str.split` on an explicit separator never returns an empty list,
so `[-1]` is its last element; `splitOnChar` likewise never returns
`[]`). -/
def paperId (r : ArxivEntry) : String :=
  String.mk ((splitOnChar '/' r.entry_id.toList).getLastD [])

/-- Python `str.replace(a, b)` for single-character `a`, `b`. -/
def replaceChar (a b : Char) : List Char → List Char
  | [] => []
  | c :: cs => (if c = a then b else c) :: replaceChar a b cs

/-- `s.replace('\n', ' ')`. -/
def replaceNewline (s : String) : String :=
  String.mk (replaceChar '\n' ' ' s.toList)

/-- `t.split('.')[-1]`: the last piece of splitting on `.`. -/
def splitLastDot (t : String) : String :=
  String.mk ((splitOnChar '.' t.toList).getLastD [])

/-- Python `d.get(k, dflt)` on a parsed JSON object. -/
def dictGet (d : List (String × String)) (k dflt : String) : String :=
  match d.find? (fun p => p.1 == k) with
  | some p => p.2
  | none => dflt

/-- The fixed fallback pair returned by `ai_process` when the call raises:
`{"innovation": "AI 总结暂不可用", "abstract_zh": "翻译暂不可用"}`. -/
def aiFallback : List (String × String) :=
  [("innovation", "AI 总结暂不可用"), ("abstract_zh", "翻译暂不可用")]

/-- `ai_process(title, abstract)`: the external call and JSON parse either
produce a parsed object (`Except.ok`) or raise (`Except.error`); the
`except` branch returns the fixed fallback pair. The title/abstract only
feed the prompt, so the observable behaviour is a function of the call
outcome. -/
def ai_process (call : Except Unit (List (String × String))) :
    List (String × String) :=
  match call with
  | Except.ok d => d
  | Except.error _ => aiFallback

/-- The loop body of `fetch_arxiv_updates`, iterating over
`client_arxiv.results(search)` (a list here) with the precomputed
`time_threshold`:
break on `r.updated < time_threshold`, skip on `paper_id in existing_ids`,
skip on empty `cats = [c for c in r.categories if c in TARGET_CATEGORIES]`,
otherwise append `r`. -/
def fetchLoop (existing_ids : List String) (time_threshold : Int) :
    List ArxivEntry → List ArxivEntry
  | [] => []
  | r :: rest =>
    if r.updated < time_threshold then []
    else if paperId r ∈ existing_ids then fetchLoop existing_ids time_threshold rest
    else if (r.categories.filter (fun c => c ∈ TARGET_CATEGORIES)) = [] then
      fetchLoop existing_ids time_threshold rest
    else r :: fetchLoop existing_ids time_threshold rest

/-- `fetch_arxiv_updates(existing_ids)` given the current time `utc_now`
and the upstream result sequence: sets
`time_threshold = utc_now - timedelta(hours=25)` and runs the loop. -/
def fetch_arxiv_updates (existing_ids : List String) (utc_now : Int)
    (results : List ArxivEntry) : List ArxivEntry :=
  fetchLoop existing_ids (utc_now - 25 * 3600) results

/-- `r.updated.strftime("%Y-%m-%d")`, abstracted as decimal rendering of
the integer timestamp (no claim depends on the rendered text). -/
def strfDate (t : Int) : String := toString t

/-- The `paper_obj` literal built in `main` for entry `r`, from the parsed
AI result `ai_res` and the gradient `g` drawn by
`random.choice(GRADIENTS)`. -/
def buildRecord (r : ArxivEntry) (ai_res : List (String × String))
    (g : String) : PaperRecord :=
  { id := paperId r
  , orig_title := replaceNewline r.title
  , tags := (r.categories.filter (fun t => t ∈ TARGET_CATEGORIES)).map splitLastDot
  , userTags := []
  , coverGradient := g
  , summary_innovation := dictGet ai_res "innovation" "无总结"
  , abstract_zh := dictGet ai_res "abstract_zh" "无翻译"
  , abstract_en := replaceNewline r.summary
  , authors := r.authors.take 5
  , affiliation := r.categories.headD ""
  , date := strfDate r.updated
  , pdf_url := r.pdf_url
  , likes := 0, isLiked := false
  , collections := 0, isCollected := false
  , comments := [], qa := []
  , expanded := false, isTranslated := false }

/-- The `for i, r in enumerate(raw_papers)` loop of `main`, started at
index `i`: the `i`-th iteration calls `ai_process` (outcome `ai i`) and
`random.choice` (outcome `grad i`) and appends the built `paper_obj`. -/
def processFrom (ai : Nat → Except Unit (List (String × String)))
    (grad : Nat → String) : Nat → List ArxivEntry → List PaperRecord
  | _, [] => []
  | i, r :: rest =>
    buildRecord r (ai_process (ai i)) (grad i) :: processFrom ai grad (i + 1) rest

/-- `processed_list` as built by `main` from `raw_papers` (enumeration
starts at index 0; when `raw_papers` is empty the loop body never runs and
the list stays `[]`). -/
def processed_list (ai : Nat → Except Unit (List (String × String)))
    (grad : Nat → String) (raw_papers : List ArxivEntry) : List PaperRecord :=
  processFrom ai grad 0 raw_papers

/-- `raw_papers` in `main`: `fetch_arxiv_updates(existing_ids)` inside
`try`, with `except` setting `raw_papers = []`. -/
def raw_papers (existing_ids : List String) (utc_now : Int)
    (fetchResult : Except Unit (List ArxivEntry)) : List ArxivEntry :=
  match fetchResult with
  | Except.ok results => fetch_arxiv_updates existing_ids utc_now results
  | Except.error _ => []

/-- `main`, given the loaded `existing_data` (a well-formed record array),
the outcome of the upstream fetch, the per-index AI-call and random-choice
outcomes, and the current time: returns `final_data`, the record sequence
written to the persisted file
(`final_data = processed_list + existing_data`). -/
def mainRun (existing_data : List PaperRecord)
    (fetchResult : Except Unit (List ArxivEntry))
    (ai : Nat → Except Unit (List (String × String)))
    (grad : Nat → String) (utc_now : Int) : List PaperRecord :=
  let existing_ids := existing_data.map (fun p => p.id)
  processed_list ai grad (raw_papers existing_ids utc_now fetchResult)
    ++ existing_data

/-- Outcome of `json.load` on the persisted file in
`get_existing_papers`: either the load raises (content is not valid
JSON), or it returns a JSON value — an array of paper-record objects, or
some other value (an object, a number, an array of non-records, …). -/
inductive JsonParse where
  | raisesError
  | arr (xs : List PaperRecord)
  | otherValue
deriving DecidableEq

/-- The state of the persisted file as seen by `get_existing_papers`. -/
inductive FileState where
  | absent
  | present (content : JsonParse)
deriving DecidableEq

/-- What `get_existing_papers` returns: either a record array (possibly
empty) or a passed-through non-array JSON value. -/
inductive LoadedValue where
  | arr (xs : List PaperRecord)
  | otherValue
deriving DecidableEq

/-- `get_existing_papers()`: `[]` when the file does not exist, `[]` when
`json.load` raises, and otherwise whatever value `json.load` returned —
the `except` clause only guards the load itself, so a valid-JSON value of
the wrong shape is returned unchanged. -/
def get_existing_papers : FileState → LoadedValue
  | FileState.absent => LoadedValue.arr []
  | FileState.present JsonParse.raisesError => LoadedValue.arr []
  | FileState.present (JsonParse.arr xs) => LoadedValue.arr xs
  | FileState.present JsonParse.otherValue => LoadedValue.otherValue

/-- Every entry kept by the fetch loop is at or after the threshold, has
an unknown id, has a category inside the target set, and comes from the
input sequence. -/
theorem mem_fetchLoop {ids : List String} {thr : Int} {es : List ArxivEntry}
    {r : ArxivEntry} (h : r ∈ fetchLoop ids thr es) :
    thr ≤ r.updated ∧ paperId r ∉ ids ∧
      r.categories.filter (fun c => c ∈ TARGET_CATEGORIES) ≠ [] ∧ r ∈ es := by
  induction es with
  | nil => simp [fetchLoop] at h
  | cons e rest ih =>
    rw [fetchLoop] at h
    by_cases h1 : e.updated < thr
    · simp [h1] at h
    · rw [if_neg h1] at h
      by_cases h2 : paperId e ∈ ids
      · rw [if_pos h2] at h
        obtain ⟨a, b, c, d⟩ := ih h
        exact ⟨a, b, c, List.mem_cons_of_mem _ d⟩
      · rw [if_neg h2] at h
        by_cases h3 : e.categories.filter (fun c => c ∈ TARGET_CATEGORIES) = []
        · rw [if_pos h3] at h
          obtain ⟨a, b, c, d⟩ := ih h
          exact ⟨a, b, c, List.mem_cons_of_mem _ d⟩
        · rw [if_neg h3] at h
          rcases List.mem_cons.mp h with h | h
          · subst h; exact ⟨le_of_not_lt h1, h2, h3, List.mem_cons_self _ _⟩
          · obtain ⟨a, b, c, d⟩ := ih h
            exact ⟨a, b, c, List.mem_cons_of_mem _ d⟩

/-- The fetch loop output is a sublist of the input sequence. -/
theorem fetchLoop_sublist (ids : List String) (thr : Int)
    (es : List ArxivEntry) : (fetchLoop ids thr es).Sublist es := by
  induction es with
  | nil => exact List.Sublist.refl _
  | cons e rest ih =>
    rw [fetchLoop]
    split
    · exact List.nil_sublist _
    · split
      · exact ih.cons _
      · split
        · exact ih.cons _
        · exact ih.cons₂ _

/-- The processing loop builds exactly one record per raw paper. -/
theorem length_processFrom (ai : Nat → Except Unit (List (String × String)))
    (grad : Nat → String) :
    ∀ (n : Nat) (es : List ArxivEntry),
      (processFrom ai grad n es).length = es.length
  | _, [] => rfl
  | n, _ :: rest => by
      simp [processFrom, length_processFrom ai grad (n + 1) rest]

/-- Element `i` of the processing loop started at `n` is the record built
from element `i` of the raw list with AI/random outcomes `n + i`. -/
theorem getElem?_processFrom (ai : Nat → Except Unit (List (String × String)))
    (grad : Nat → String) :
    ∀ (n i : Nat) (es : List ArxivEntry),
      (processFrom ai grad n es)[i]? =
        (es[i]?).map
          (fun r => buildRecord r (ai_process (ai (n + i))) (grad (n + i)))
  | _, _, [] => by simp [processFrom]
  | n, 0, r :: rest => by simp [processFrom]
  | n, i + 1, r :: rest => by
      have h : n + 1 + i = n + (i + 1) := by omega
      simp only [processFrom, List.getElem?_cons_succ]
      rw [getElem?_processFrom ai grad (n + 1) i rest, h]

/-- The ids of the records built by the processing loop are the paper ids
of the raw entries, in order. -/
theorem map_id_processFrom (ai : Nat → Except Unit (List (String × String)))
    (grad : Nat → String) :
    ∀ (n : Nat) (es : List ArxivEntry),
      (processFrom ai grad n es).map (fun p => p.id) = es.map paperId
  | _, [] => rfl
  | n, r :: rest => by
      simp [processFrom, map_id_processFrom ai grad (n + 1) rest, buildRecord]

/-- If every entry of `es1` is at or after the threshold and `b` is
strictly before it, the loop on `es1 ++ b :: es2` stops at `b`: it equals
the loop on `es1` alone, whatever follows `b`. -/
theorem fetchLoop_halt (ids : List String) (thr : Int) :
    ∀ (es1 : List ArxivEntry) (b : ArxivEntry) (es2 : List ArxivEntry),
      (∀ e ∈ es1, thr ≤ e.updated) → b.updated < thr →
      fetchLoop ids thr (es1 ++ b :: es2) = fetchLoop ids thr es1
  | [], b, es2, _, hb => by
      show fetchLoop ids thr (b :: es2) = fetchLoop ids thr []
      simp only [fetchLoop, if_pos hb]
  | e :: rest, b, es2, hall, hb => by
      have he := hall e (List.mem_cons_self e rest)
      have ih := fetchLoop_halt ids thr rest b es2
        (fun x hx => hall x (List.mem_cons_of_mem _ hx)) hb
      simp only [List.cons_append, fetchLoop, if_neg (not_lt.mpr he),
        List.append_eq, ih]

/-- Every record produced by the processing loop is built from some entry
of the raw list, with the AI-call and random-choice outcomes of its
position. -/
theorem mem_processFrom {ai : Nat → Except Unit (List (String × String))}
    {grad : Nat → String} :
    ∀ (n : Nat) {es : List ArxivEntry} {rec : PaperRecord},
      rec ∈ processFrom ai grad n es →
      ∃ i r, es[i]? = some r ∧
        rec = buildRecord r (ai_process (ai (n + i))) (grad (n + i))
  | _, [], _, h => by simp [processFrom] at h
  | n, e :: rest, rec, h => by
      rcases List.mem_cons.mp h with h | h
      · exact ⟨0, e, by simp, h⟩
      · obtain ⟨i, r, h1, h2⟩ := mem_processFrom (n + 1) h
        have hn : n + 1 + i = n + (i + 1) := by omega
        exact ⟨i + 1, r, by simpa using h1, by rw [h2, hn]⟩

/-- C2 (time-cutoff boundary): with `time_threshold = utc_now − 25·3600`,
(1) an entry whose `updated` time is at or after the threshold does not
stop the scan — it is either skipped by the id/category checks or kept,
and the rest of the sequence is still consumed; (2) the first entry
strictly before the threshold stops consumption entirely: the result on
`es1 ++ b :: es2` equals the result on `es1`, so no entry after `b` is
examined or emitted. -/
theorem fetch_time_cutoff_boundary (ids : List String) (utc_now : Int) :
    (∀ (e : ArxivEntry) (rest : List ArxivEntry),
        utc_now - 25 * 3600 ≤ e.updated →
        fetch_arxiv_updates ids utc_now (e :: rest) =
          (if paperId e ∈ ids ∨
              e.categories.filter (fun c => c ∈ TARGET_CATEGORIES) = [] then
            fetch_arxiv_updates ids utc_now rest
          else e :: fetch_arxiv_updates ids utc_now rest)) ∧
    (∀ (es1 : List ArxivEntry) (b : ArxivEntry) (es2 : List ArxivEntry),
        (∀ e ∈ es1, utc_now - 25 * 3600 ≤ e.updated) →
        b.updated < utc_now - 25 * 3600 →
        fetch_arxiv_updates ids utc_now (es1 ++ b :: es2) =
          fetch_arxiv_updates ids utc_now es1) := by
  constructor
  · intro e rest h
    show fetchLoop ids (utc_now - 25 * 3600) (e :: rest) = _
    rw [fetchLoop, if_neg (not_lt.mpr h)]
    by_cases h2 : paperId e ∈ ids
    · rw [if_pos h2, if_pos (Or.inl h2)]; rfl
    · rw [if_neg h2]
      by_cases h3 : e.categories.filter (fun c => c ∈ TARGET_CATEGORIES) = []
      · rw [if_pos h3, if_pos (Or.inr h3)]; rfl
      · rw [if_neg h3, if_neg (by tauto)]; rfl
  · intro es1 b es2 hall hb
    exact fetchLoop_halt ids (utc_now - 25 * 3600) es1 b es2 hall hb

/-- C5 (category filter): a fetched entry whose category list meets none
of `TARGET_CATEGORIES` never appears in the output of
`fetch_arxiv_updates` — whatever its `updated` time — and conversely every
emitted entry has at least one target category; hence (via
`mem_processFrom`) no persisted record is built from such an entry. -/
theorem category_filter_correct (ids : List String) (utc_now : Int)
    (results : List ArxivEntry) (e : ArxivEntry) (he : e ∈ results)
    (hc : e.categories.filter (fun c => c ∈ TARGET_CATEGORIES) = []) :
    e ∉ fetch_arxiv_updates ids utc_now results ∧
      ∀ r ∈ fetch_arxiv_updates ids utc_now results,
        r.categories.filter (fun c => c ∈ TARGET_CATEGORIES) ≠ [] := by
  refine ⟨fun hmem => ?_, fun r hr => (mem_fetchLoop hr).2.2.1⟩
  exact absurd he fun _ => (mem_fetchLoop hmem).2.2.1 hc

/-- C9 (implicit safety): every entry emitted by the incremental filter —
i.e. every entry that reaches the record builder in `main` — has a
non-empty category list, so the `r.categories[0]` read assigned to
`affiliation` is in range, and `buildRecord` stores exactly that first
category. -/
theorem affiliation_access_safe (ids : List String) (utc_now : Int)
    (results : List ArxivEntry) (r : ArxivEntry)
    (hr : r ∈ fetch_arxiv_updates ids utc_now results) :
    r.categories ≠ [] ∧
      ∃ c cs, r.categories = c :: cs ∧
        ∀ ai_res g, (buildRecord r ai_res g).affiliation = c := by
  have hcats := (mem_fetchLoop hr).2.2.1
  cases hcat : r.categories with
  | nil => exact absurd (by rw [hcat]; rfl) hcats
  | cons c cs =>
    refine ⟨by simp [hcat], c, cs, rfl, fun ai_res g => ?_⟩
    simp [buildRecord, hcat]

/-- C7 (loader degrade, amended): the loader returns `[]` when the file
is absent or `json.load` raises, and returns a loaded record array
unchanged; but a valid-JSON value that is not a record array is passed
through as-is, not normalized to a sequence. -/
theorem loader_degrade :
    get_existing_papers FileState.absent = LoadedValue.arr [] ∧
    get_existing_papers (FileState.present JsonParse.raisesError) =
      LoadedValue.arr [] ∧
    (∀ xs, get_existing_papers (FileState.present (JsonParse.arr xs)) =
      LoadedValue.arr xs) ∧
    get_existing_papers (FileState.present JsonParse.otherValue) =
      LoadedValue.otherValue :=
  ⟨rfl, rfl, fun _ => rfl, rfl⟩

/-- C7 counterexample: on a file whose content parses as a JSON value
that is not a record array, `get_existing_papers` does not return a
record sequence (the claim promised a sequence for every file-system
state). -/
theorem loader_not_always_array :
    ¬ ∃ xs, get_existing_papers (FileState.present JsonParse.otherValue) =
      LoadedValue.arr xs := by
  rintro ⟨xs, h⟩
  exact LoadedValue.noConfusion h

/-- C4 (merge order): `final_data = processed_list + existing_data` —
the persisted sequence is exactly the newly built batch followed by the
previously loaded collection: its first `k` elements are the batch, the
rest is the old collection unchanged, and its length is `k + n`. -/
theorem merge_order (existing_data : List PaperRecord)
    (fetchResult : Except Unit (List ArxivEntry))
    (ai : Nat → Except Unit (List (String × String)))
    (grad : Nat → String) (utc_now : Int) :
    mainRun existing_data fetchResult ai grad utc_now =
      processed_list ai grad
          (raw_papers (existing_data.map (fun p => p.id)) utc_now fetchResult)
        ++ existing_data ∧
    (mainRun existing_data fetchResult ai grad utc_now).length =
      (processed_list ai grad
          (raw_papers (existing_data.map (fun p => p.id)) utc_now fetchResult)).length
        + existing_data.length ∧
    (mainRun existing_data fetchResult ai grad utc_now).take
        (processed_list ai grad
          (raw_papers (existing_data.map (fun p => p.id)) utc_now fetchResult)).length =
      processed_list ai grad
        (raw_papers (existing_data.map (fun p => p.id)) utc_now fetchResult) ∧
    (mainRun existing_data fetchResult ai grad utc_now).drop
        (processed_list ai grad
          (raw_papers (existing_data.map (fun p => p.id)) utc_now fetchResult)).length =
      existing_data := by
  constructor
  · rfl
  · rw [show mainRun existing_data fetchResult ai grad utc_now =
        processed_list ai grad
            (raw_papers (existing_data.map (fun p => p.id)) utc_now fetchResult)
          ++ existing_data from rfl]
    exact ⟨List.length_append _ _, List.take_left _ _, List.drop_left _ _⟩

/-- C6 (empty-batch frame property): when the upstream fetch raises (the
`except` branch sets `raw_papers = []`) or the filter emits nothing, the
run still produces a persisted sequence, and it is the previously loaded
collection itself — same records, same order, same count. -/
theorem empty_batch_frame (existing_data : List PaperRecord)
    (ai : Nat → Except Unit (List (String × String)))
    (grad : Nat → String) (utc_now : Int) :
    mainRun existing_data (Except.error ()) ai grad utc_now = existing_data ∧
    ∀ results : List ArxivEntry,
      fetch_arxiv_updates (existing_data.map (fun p => p.id)) utc_now results = [] →
      mainRun existing_data (Except.ok results) ai grad utc_now = existing_data := by
  constructor
  · rfl
  · intro results h
    show processed_list ai grad
        (raw_papers (existing_data.map (fun p => p.id)) utc_now (Except.ok results))
      ++ existing_data = existing_data
    rw [show raw_papers (existing_data.map (fun p => p.id)) utc_now
        (Except.ok results) = [] from h]
    rfl

/-- C3 (enrichment fallback): when the AI call for paper `i` raises,
`ai_process` returns the fixed fallback pair, the run still reaches the
merge step, and position `i` of the persisted sequence is the record for
that paper built from the fallback — its innovation field is
"AI 总结暂不可用" and its translated abstract is "翻译暂不可用". -/
theorem enrichment_fallback (existing_data : List PaperRecord)
    (results : List ArxivEntry)
    (ai : Nat → Except Unit (List (String × String)))
    (grad : Nat → String) (utc_now : Int) (i : Nat) (r : ArxivEntry)
    (hr : (raw_papers (existing_data.map (fun p => p.id)) utc_now
      (Except.ok results))[i]? = some r)
    (he : ai i = Except.error ()) :
    ai_process (ai i) = aiFallback ∧
    (mainRun existing_data (Except.ok results) ai grad utc_now)[i]? =
      some (buildRecord r aiFallback (grad i)) ∧
    (buildRecord r aiFallback (grad i)).summary_innovation = "AI 总结暂不可用" ∧
    (buildRecord r aiFallback (grad i)).abstract_zh = "翻译暂不可用" := by
  refine ⟨by rw [he]; rfl, ?_, rfl, rfl⟩
  have hi : i < (processed_list ai grad
      (raw_papers (existing_data.map (fun p => p.id)) utc_now
        (Except.ok results))).length := by
    rw [show processed_list ai grad
        (raw_papers (existing_data.map (fun p => p.id)) utc_now
          (Except.ok results)) = processFrom ai grad 0
        (raw_papers (existing_data.map (fun p => p.id)) utc_now
          (Except.ok results)) from rfl,
      length_processFrom]
    exact (List.getElem?_eq_some.mp hr).1
  show (processed_list ai grad
      (raw_papers (existing_data.map (fun p => p.id)) utc_now
        (Except.ok results)) ++ existing_data)[i]? = _
  rw [List.getElem?_append_left hi]
  show (processFrom ai grad 0 _)[i]? = _
  rw [getElem?_processFrom, hr]
  simp [he, ai_process]

/-- C10 (implicit missing-key defaults): a successful AI call whose
parsed object lacks the "innovation" (resp. "abstract_zh") key yields
"无总结" (resp. "无翻译") in the built record — a value class distinct
from the error-path fallback pair. -/
theorem missing_key_defaults (r : ArxivEntry) (d : List (String × String))
    (g : String) :
    (d.find? (fun p => p.1 == "innovation") = none →
      (buildRecord r (ai_process (Except.ok d)) g).summary_innovation = "无总结") ∧
    (d.find? (fun p => p.1 == "abstract_zh") = none →
      (buildRecord r (ai_process (Except.ok d)) g).abstract_zh = "无翻译") ∧
    (buildRecord r (ai_process (Except.error ())) g).summary_innovation =
      "AI 总结暂不可用" ∧
    (buildRecord r (ai_process (Except.error ())) g).abstract_zh =
      "翻译暂不可用" ∧
    (buildRecord r (ai_process (Except.error ())) g).summary_innovation ≠
      "无总结" ∧
    (buildRecord r (ai_process (Except.error ())) g).abstract_zh ≠ "无翻译" := by
  refine ⟨fun h => ?_, fun h => ?_, rfl, rfl,
    fun h => (by decide : ¬ ("AI 总结暂不可用" : String) = "无总结") h,
    fun h => (by decide : ¬ ("翻译暂不可用" : String) = "无翻译") h⟩
  · show dictGet (ai_process (Except.ok d)) "innovation" "无总结" = "无总结"
    rw [show ai_process (Except.ok d) = d from rfl]
    rw [dictGet, h]
  · show dictGet (ai_process (Except.ok d)) "abstract_zh" "无翻译" = "无翻译"
    rw [show ai_process (Except.ok d) = d from rfl]
    rw [dictGet, h]

/-- Modelled from the spec's wording for the `tags` field: "the subset of
the paper's categories intersected with the target category set,
category-prefix stripped" (the prefix up to the last dot removed),
keeping upstream order. -/
def tagsSpec : List String → List String
  | [] => []
  | c :: cs =>
    if c ∈ TARGET_CATEGORIES then
      String.mk ((splitOnChar '.' c.toList).getLastD c.toList) :: tagsSpec cs
    else tagsSpec cs

/-- The spec-side stripping agrees with the code-side `splitLastDot` on
every category in the target set (checked on the four concrete target
category strings). -/
theorem stripTarget_eq (c : String) (h : c ∈ TARGET_CATEGORIES) :
    splitLastDot c = String.mk ((splitOnChar '.' c.toList).getLastD c.toList) := by
  simp only [TARGET_CATEGORIES, List.mem_cons, List.not_mem_nil, or_false] at h
  rcases h with h | h | h | h
  all_goals subst h; rfl

/-- Code-side tags (`[t.split('.')[-1] for t in r.categories if t in
TARGET_CATEGORIES]`) equal the spec-side description. -/
theorem tags_eq_tagsSpec : ∀ l : List String,
    (l.filter (fun t => t ∈ TARGET_CATEGORIES)).map splitLastDot = tagsSpec l
  | [] => rfl
  | c :: cs => by
      by_cases h : c ∈ TARGET_CATEGORIES
      · simp [tagsSpec, List.filter_cons, h, tags_eq_tagsSpec cs,
          stripTarget_eq c h]
      · simp [tagsSpec, List.filter_cons, h, tags_eq_tagsSpec cs]

/-- C8 (tags field mapping): the `tags` field of every built record is
the subsequence of the entry's categories lying in the target set, in
upstream order, each with its prefix up to the last dot stripped. -/
theorem tags_field_mapping (r : ArxivEntry) (ai_res : List (String × String))
    (g : String) : (buildRecord r ai_res g).tags = tagsSpec r.categories :=
  tags_eq_tagsSpec r.categories

/-- C1 (deduplication invariant, amended): every fetched entry whose id
is among the loaded ids is skipped by the filter — unconditionally; and
provided the loaded ids are pairwise distinct and the fetched entries
have pairwise distinct ids, the persisted sequence has pairwise distinct
ids. (The extra distinctness hypotheses are forced: the filter checks a
candidate only against the ids loaded before the run, never against the
current batch, see `dedup_fails_on_duplicate_fetch`.) -/
theorem dedup_unique_ids (existing_data : List PaperRecord)
    (results : List ArxivEntry)
    (ai : Nat → Except Unit (List (String × String)))
    (grad : Nat → String) (utc_now : Int) :
    (∀ e : ArxivEntry, paperId e ∈ existing_data.map (fun p => p.id) →
      e ∉ fetch_arxiv_updates (existing_data.map (fun p => p.id))
        utc_now results) ∧
    ((existing_data.map (fun p => p.id)).Nodup →
      (results.map paperId).Nodup →
      ((mainRun existing_data (Except.ok results) ai grad utc_now).map
        (fun p => p.id)).Nodup) := by
  constructor
  · intro e hin hmem
    exact (mem_fetchLoop hmem).2.1 hin
  · intro h1 h2
    rw [show mainRun existing_data (Except.ok results) ai grad utc_now =
        processed_list ai grad (raw_papers (existing_data.map (fun p => p.id))
          utc_now (Except.ok results)) ++ existing_data from rfl,
      List.map_append]
    rw [show processed_list ai grad
          (raw_papers (existing_data.map (fun p => p.id)) utc_now
            (Except.ok results)) =
        processFrom ai grad 0
          (raw_papers (existing_data.map (fun p => p.id)) utc_now
            (Except.ok results)) from rfl,
      map_id_processFrom]
    refine List.nodup_append.mpr ⟨?_, h1, ?_⟩
    · exact List.Nodup.sublist
        ((fetchLoop_sublist (existing_data.map (fun p => p.id))
          (utc_now - 25 * 3600) results).map paperId) h2
    · intro a ha hb
      obtain ⟨r, hr, rfl⟩ := List.mem_map.mp ha
      exact (mem_fetchLoop hr).2.1 hb

/-- A concrete entry eligible at `utc_now = 0`: recent, unknown id, a
target category. -/
def sampleEntry : ArxivEntry :=
  { entry_id := "http://a/2401.00001v1", title := "T", summary := "S"
  , categories := ["cs.AI"], authors := ["A"], updated := 0, pdf_url := "P" }

/-- A concrete entry strictly older than the 25-hour cutoff at
`utc_now = 0` (25 · 3600 = 90000). -/
def oldEntry : ArxivEntry :=
  { entry_id := "http://a/2301.00002v1", title := "U", summary := "V"
  , categories := ["cs.AI"], authors := ["B"], updated := -100000
  , pdf_url := "Q" }

/-- A concrete recent entry with no target category. -/
def offTopicEntry : ArxivEntry :=
  { entry_id := "http://a/2401.00003v1", title := "W", summary := "X"
  , categories := ["math.CO"], authors := ["C"], updated := 0
  , pdf_url := "R" }

/-- AI-call outcomes where every call raises. -/
def aiErr : Nat → Except Unit (List (String × String)) := fun _ => Except.error ()

/-- A fixed outcome for the gradient draws. -/
def gradFixed : Nat → String := fun _ => "g"

/-- A persisted record whose id is `sampleEntry`'s paper id. -/
def knownRecord : PaperRecord := buildRecord sampleEntry aiFallback "g"

/-- C1 counterexample: a run whose loaded collection is empty (so no
fetched id is "already present") but whose fetch sequence carries the
same paper twice produces a persisted collection with two records of the
same id — the claim's unconditional uniqueness fails. -/
theorem dedup_fails_on_duplicate_fetch :
    ¬ ((mainRun [] (Except.ok [sampleEntry, sampleEntry]) aiErr gradFixed
        0).map (fun p => p.id)).Nodup := by
  decide

/-- C2 witness: at `utc_now = 0`, the recent `sampleEntry` is consumed
and kept, while `oldEntry` (below the 25-hour cutoff) stops the scan —
the entry behind it is never examined. -/
theorem fetch_time_cutoff_boundary_witness :
    fetch_arxiv_updates [] 0 (sampleEntry :: [oldEntry]) =
      sampleEntry :: fetch_arxiv_updates [] 0 [oldEntry] ∧
    fetch_arxiv_updates [] 0 ([sampleEntry] ++ oldEntry :: [sampleEntry]) =
      fetch_arxiv_updates [] 0 [sampleEntry] := by
  constructor
  · rw [(fetch_time_cutoff_boundary [] 0).1 sampleEntry [oldEntry] (by decide),
      if_neg (by decide)]
  · exact (fetch_time_cutoff_boundary [] 0).2 [sampleEntry] oldEntry
      [sampleEntry] (by decide) (by decide)

/-- C5 witness: the recent but off-topic `offTopicEntry` is dropped by
the category check, and every kept entry has a target category. -/
theorem category_filter_correct_witness :
    offTopicEntry ∉ fetch_arxiv_updates [] 0 [sampleEntry, offTopicEntry] ∧
      ∀ r ∈ fetch_arxiv_updates [] 0 [sampleEntry, offTopicEntry],
        r.categories.filter (fun c => c ∈ TARGET_CATEGORIES) ≠ [] :=
  category_filter_correct [] 0 [sampleEntry, offTopicEntry] offTopicEntry
    (by decide) (by decide)

/-- C9 witness: `sampleEntry` reaches the record builder with a non-empty
category list whose head becomes the `affiliation` field. -/
theorem affiliation_access_safe_witness :
    sampleEntry.categories ≠ [] ∧
      ∃ c cs, sampleEntry.categories = c :: cs ∧
        ∀ ai_res g, (buildRecord sampleEntry ai_res g).affiliation = c :=
  affiliation_access_safe [] 0 [sampleEntry] sampleEntry (by decide)

/-- C6 witness: with one loaded record, both a raising fetch and a fetch
whose only entry is too old persist exactly the loaded collection. -/
theorem empty_batch_frame_witness :
    mainRun [knownRecord] (Except.error ()) aiErr gradFixed 0 =
      [knownRecord] ∧
    mainRun [knownRecord] (Except.ok [oldEntry]) aiErr gradFixed 0 =
      [knownRecord] :=
  ⟨(empty_batch_frame [knownRecord] aiErr gradFixed 0).1,
   (empty_batch_frame [knownRecord] aiErr gradFixed 0).2 [oldEntry] (by decide)⟩

/-- C3 witness: with every AI call raising, the record persisted at
position 0 for `sampleEntry` carries the fixed fallback strings. -/
theorem enrichment_fallback_witness :
    ai_process (aiErr 0) = aiFallback ∧
    (mainRun [] (Except.ok [sampleEntry]) aiErr gradFixed 0)[0]? =
      some (buildRecord sampleEntry aiFallback (gradFixed 0)) ∧
    (buildRecord sampleEntry aiFallback (gradFixed 0)).summary_innovation =
      "AI 总结暂不可用" ∧
    (buildRecord sampleEntry aiFallback (gradFixed 0)).abstract_zh =
      "翻译暂不可用" :=
  enrichment_fallback [] [sampleEntry] aiErr gradFixed 0 0 sampleEntry
    (by decide) rfl

/-- C10 witness: a successful AI call returning an empty JSON object
yields the missing-key defaults, not the fallback pair. -/
theorem missing_key_defaults_witness :
    (buildRecord sampleEntry (ai_process (Except.ok [])) "g").summary_innovation =
      "无总结" ∧
    (buildRecord sampleEntry (ai_process (Except.ok [])) "g").abstract_zh =
      "无翻译" :=
  ⟨(missing_key_defaults sampleEntry [] "g").1 rfl,
   (missing_key_defaults sampleEntry [] "g").2.1 rfl⟩

/-- C1 witness: with `knownRecord` loaded, re-fetching `sampleEntry`
(same id) adds nothing, and the persisted ids stay pairwise distinct. -/
theorem dedup_unique_ids_witness :
    sampleEntry ∉ fetch_arxiv_updates
      (([knownRecord] : List PaperRecord).map (fun p => p.id)) 0
      [sampleEntry] ∧
    ((mainRun [knownRecord] (Except.ok [sampleEntry]) aiErr gradFixed 0).map
      (fun p => p.id)).Nodup :=
  ⟨(dedup_unique_ids [knownRecord] [sampleEntry] aiErr gradFixed 0).1
      sampleEntry (by decide),
   (dedup_unique_ids [knownRecord] [sampleEntry] aiErr gradFixed 0).2
      (by decide) (by decide)⟩

end DailyFetch
